import Mathlib

/-!
Verification of the StreamRank anomaly/trend scoring engine and its
surrounding interfaces, against the repository's design specification.

The anomaly engine itself (`app/anomaly/` in the repository) ships only its
module README in this source tree; the engine definitions below are
therefore modelled from the specification (sections 3-4.6 and the module
README), as noted on each definition.  The widget-side definitions
(`getTrendStatus`, `parseQueryParams`/`useConfig`) are translated directly
from `src/frontend-widget/src/types/index.ts` and
`src/frontend-widget/src/hooks/useStreams.ts`.

Real-number quantities (the logistic score, the standard-deviation path of
the z-score strategy) are modelled in `ℝ`; all other statistics are exact
rationals, standing in for the floats of the source.
-/

namespace StreamRank

/-! ## Configuration model -/

/-- Modelled from the spec: `QuantileParams` of `app/anomaly/config.py` is
missing from the source tree; fields and defaults follow section 4.2 and the
module README parameter table. -/
structure QuantileParams where
  baseline_percentile : ℚ
  recent_percentile : ℚ
  spike_threshold : ℚ
  high_traffic_multiplier : ℚ
deriving DecidableEq

/-- Modelled from the spec: `ZScoreParams` of `app/anomaly/config.py` is
missing from the source tree; fields and defaults follow section 4.3 and the
module README parameter table. -/
structure ZScoreParams where
  zscore_threshold : ℚ
  use_modified_zscore : Bool
  min_std_floor : ℚ
  clamp_negative : Bool
deriving DecidableEq

/-- Algorithm identifier (`"quantile" | "zscore"`), section 3. -/
inductive Algorithm where
  | quantile
  | zscore
deriving DecidableEq

/-- Modelled from the spec: `AnomalyConfig` of `app/anomaly/config.py` is
missing from the source tree; shared fields follow section 3. -/
structure AnomalyConfig where
  algorithm : Algorithm
  recent_window_minutes : ℚ
  baseline_hours : ℚ
  min_recent_samples : ℕ
  min_baseline_samples : ℕ
  score_min : ℚ
  score_max : ℚ
  logistic_midpoint : ℚ
  logistic_steepness : ℚ
  quantile_params : QuantileParams
  zscore_params : ZScoreParams

/-- Built-in defaults, from the module README tables and section 3. -/
def defaultConfig : AnomalyConfig where
  algorithm := .quantile
  recent_window_minutes := 15
  baseline_hours := 24
  min_recent_samples := 5
  min_baseline_samples := 20
  score_min := 0
  score_max := 100
  logistic_midpoint := 0
  logistic_steepness := 0.1
  quantile_params :=
    { baseline_percentile := 75
      recent_percentile := 90
      spike_threshold := 1.5
      high_traffic_multiplier := 1.2 }
  zscore_params :=
    { zscore_threshold := 2
      use_modified_zscore := true
      min_std_floor := 10
      clamp_negative := true }

/-! ## Shared numeric routines (section 9: percentile/median/MAD utilities) -/

/-- Modelled from the spec: the percentile routine of the missing engine,
using linear interpolation between closest ranks (section 4.2), over an
unsorted list of values.  An empty list yields `0`. -/
def percentileQ (values : List ℚ) (p : ℚ) : ℚ :=
  let s := values.insertionSort (· ≤ ·)
  if s.length = 0 then 0
  else
    let hq : ℚ := p / 100 * ((s.length : ℚ) - 1)
    let i : ℕ := (⌊hq⌋).toNat
    let lo := s.getD i 0
    let hi := s.getD (i + 1) lo
    lo + (hq - (i : ℚ)) * (hi - lo)

/-- Viewer counts of a sample window, as exact rationals. -/
def counts (w : List ℕ) : List ℚ := w.map (fun (v : ℕ) => (v : ℚ))

/-- Modelled from the spec: arithmetic mean used by the standard z-score
path (section 4.3 step 3).  An empty list yields `0`. -/
def meanQ (l : List ℚ) : ℚ := l.sum / (l.length : ℚ)

/-- Modelled from the spec: population variance backing `stdev` of the
standard z-score path (section 4.3 step 3). -/
def varianceQ (l : List ℚ) : ℚ :=
  (l.map (fun v => (v - meanQ l) ^ 2)).sum / (l.length : ℚ)

/-! ## Logistic normalization (section 4.1, `app/anomaly/logistic.py`) -/

/-- Modelled from the spec: `logistic_normalize` of the missing
`app/anomaly/logistic.py`; the formula is section 4.1's
`score = score_min + (score_max - score_min) / (1 + exp(-steepness * (raw - midpoint)))`. -/
noncomputable def logistic_normalize (raw : ℝ) (cfg : AnomalyConfig) : ℝ :=
  (cfg.score_min : ℝ) +
    ((cfg.score_max : ℝ) - (cfg.score_min : ℝ)) /
      (1 + Real.exp (-(cfg.logistic_steepness : ℝ) * (raw - (cfg.logistic_midpoint : ℝ))))

/-! ## Result model (section 3) -/

/-- Status enum of section 3. -/
inductive Status where
  | NORMAL
  | TRENDING
  | INSUFFICIENT_DATA
  | INACTIVE
  | ERROR
deriving DecidableEq

/-- Modelled from the spec: `AnomalyScore` result container of the missing
engine (section 3's data model).  `score` lives in `ℝ` because it passes
through the logistic normalization. -/
structure AnomalyScore where
  stream_id : String
  strategy_name : String
  status : Status
  score : ℝ
  raw_statistic : ℝ
  baseline_reference : ℚ
  current_value : ℚ
  metadata : List (String × String)

/-! ## Strategies (sections 4.2, 4.3) -/

/-- Outcome of one strategy computation: the raw statistic, the strategy's
trending decision (section 9's `status_hint`), and the representative
recent/baseline values surfaced in the result. -/
structure StratOutcome where
  raw : ℝ
  trending : Bool
  current_value : ℚ
  baseline_reference : ℚ

/-- Modelled from the spec: the divide-by-zero guard of section 4.2 step 3
(`epsilon`), whose concrete value the spec leaves to the implementation. -/
def quantileEpsilon : ℚ := 1 / 1000000000

/-- The spike ratio of the quantile strategy (section 4.2 steps 1-3):
`percentile(recent, recent_percentile) / max(percentile(baseline, baseline_percentile), epsilon)`. -/
def spikeRa (cfg : AnomalyConfig) (baseline recent : List ℕ) : ℚ :=
  percentileQ (counts recent) cfg.quantile_params.recent_percentile /
    max (percentileQ (counts baseline) cfg.quantile_params.baseline_percentile) quantileEpsilon

/-- Modelled from the spec: `QuantileStrategy` of the missing
`app/anomaly/quantile_strategy.py`, following section 4.2 steps 1-4. -/
noncomputable def quantileStrategy (cfg : AnomalyConfig) (baseline recent : List ℕ) :
    StratOutcome :=
  let pb := percentileQ (counts baseline) cfg.quantile_params.baseline_percentile
  let pr := percentileQ (counts recent) cfg.quantile_params.recent_percentile
  let sr := spikeRa cfg baseline recent
  { raw := (sr : ℝ)
    trending := decide (cfg.quantile_params.spike_threshold ≤ sr)
    current_value := pr
    baseline_reference := pb }

/-- The MAD comparability constant 0.6745 of section 4.3. -/
def madConst : ℚ := 0.6745

/-- The MAD-unit scale of the modified z-score path (section 4.3 step 2):
`max(0.6745 * mad, ε)` with `ε` the `min_std_floor` converted into MAD
units. -/
def zscoreScaleModified (cfg : AnomalyConfig) (baseline : List ℕ) : ℚ :=
  let vals := counts baseline
  let med := percentileQ vals 50
  let mad := percentileQ (vals.map (fun v => |v - med|)) 50
  max (madConst * mad) (madConst * cfg.zscore_params.min_std_floor)

/-- The floored standard deviation of the standard z-score path
(section 4.3 step 3): `max(stdev(baseline), min_std_floor)`. -/
noncomputable def zscoreStdDivisor (cfg : AnomalyConfig) (baseline : List ℕ) : ℝ :=
  max (Real.sqrt ((varianceQ (counts baseline) : ℝ))) ((cfg.zscore_params.min_std_floor : ℚ) : ℝ)

/-- Modelled from the spec: `ZScoreStrategy` of the missing
`app/anomaly/zscore_strategy.py`, following section 4.3 steps 1-5. -/
noncomputable def zscoreStrategy (cfg : AnomalyConfig) (baseline recent : List ℕ) :
    StratOutcome :=
  let x := percentileQ (counts recent) 90
  let vals := counts baseline
  if cfg.zscore_params.use_modified_zscore then
    let med := percentileQ vals 50
    let z0 : ℚ := madConst * (x - med) / zscoreScaleModified cfg baseline
    let z : ℚ := if cfg.zscore_params.clamp_negative then max z0 0 else z0
    { raw := (z : ℝ)
      trending := decide (cfg.zscore_params.zscore_threshold ≤ z)
      current_value := x
      baseline_reference := med }
  else
    let m := meanQ vals
    let z0 : ℝ := (((x - m : ℚ)) : ℝ) / zscoreStdDivisor cfg baseline
    let z : ℝ := if cfg.zscore_params.clamp_negative then max z0 0 else z0
    { raw := z
      trending := @decide (((cfg.zscore_params.zscore_threshold : ℚ) : ℝ) ≤ z)
        (Classical.propDecidable _)
      current_value := x
      baseline_reference := m }

/-- Modelled from the spec: the registry/factory seam of section 4.4 — the
detector obtains a strategy computation from the configured algorithm
identifier.  Strategies may fail (section 7's `ComputationError`), hence the
`Except` result. -/
noncomputable def strategyCompute (cfg : AnomalyConfig) :
    List ℕ → List ℕ → Except String StratOutcome :=
  match cfg.algorithm with
  | .quantile => fun baseline recent => .ok (quantileStrategy cfg baseline recent)
  | .zscore => fun baseline recent => .ok (zscoreStrategy cfg baseline recent)

/-- Name string of the configured strategy. -/
def strategyName (cfg : AnomalyConfig) : String :=
  match cfg.algorithm with
  | .quantile => "quantile"
  | .zscore => "zscore"

/-! ## Detector (section 4.5) -/

/-- The conventional score for evaluations that compute no statistic:
`0`, clamped to the configured minimum when that is nonzero (section 3). -/
def zeroClampedScore (cfg : AnomalyConfig) : ℚ := max cfg.score_min 0

/-- Modelled from the spec: the `INSUFFICIENT_DATA` terminal result of the
detector state machine (sections 3 and 4.5): fixed score, no statistic. -/
noncomputable def insufficientResult (cfg : AnomalyConfig) (id : String) : AnomalyScore where
  stream_id := id
  strategy_name := strategyName cfg
  status := .INSUFFICIENT_DATA
  score := ((zeroClampedScore cfg : ℚ) : ℝ)
  raw_statistic := 0
  baseline_reference := 0
  current_value := 0
  metadata := []

/-- The recent median used by the detector's inactivity check (section 3). -/
def recentMedian (recent : List ℕ) : ℚ := percentileQ (counts recent) 50

/-- Modelled from the spec: the baseline reference value of the detector's
inactivity check — the baseline median, per section 8's inactive-detection
property. -/
def baselineRef (baseline : List ℕ) : ℚ := percentileQ (counts baseline) 50

/-- The detector's data-sufficiency test (section 3):
`len(recent) < min_recent_samples or len(baseline) < min_baseline_samples`. -/
def insufficientData (cfg : AnomalyConfig) (baseline recent : List ℕ) : Prop :=
  recent.length < cfg.min_recent_samples ∨ baseline.length < cfg.min_baseline_samples

instance (cfg : AnomalyConfig) (baseline recent : List ℕ) :
    Decidable (insufficientData cfg baseline recent) := by
  unfold insufficientData; infer_instance

/-- The detector's inactivity test (section 3): recent median viewer count
is `0`, or the recent median is below 1% of the baseline reference. -/
def inactiveStream (baseline recent : List ℕ) : Prop :=
  recentMedian recent = 0 ∨ recentMedian recent < baselineRef baseline / 100

instance (baseline recent : List ℕ) : Decidable (inactiveStream baseline recent) := by
  unfold inactiveStream; infer_instance

/-- Modelled from the spec: the per-stream state machine of the missing
`app/anomaly/detector.py` (section 4.5), parametric in the strategy
computation injected by the registry.  Every failure path is mapped to a
status; a strategy error becomes `ERROR` with the message in `metadata`. -/
noncomputable def evaluateCore (compute : List ℕ → List ℕ → Except String StratOutcome)
    (cfg : AnomalyConfig) (id : String) (baseline recent : List ℕ) : AnomalyScore :=
  if insufficientData cfg baseline recent then
    insufficientResult cfg id
  else if inactiveStream baseline recent then
    { stream_id := id
      strategy_name := strategyName cfg
      status := .INACTIVE
      score := ((zeroClampedScore cfg : ℚ) : ℝ)
      raw_statistic := 0
      baseline_reference := baselineRef baseline
      current_value := recentMedian recent
      metadata := [] }
  else
    match compute baseline recent with
    | .error msg =>
        { stream_id := id
          strategy_name := strategyName cfg
          status := .ERROR
          score := ((zeroClampedScore cfg : ℚ) : ℝ)
          raw_statistic := 0
          baseline_reference := baselineRef baseline
          current_value := recentMedian recent
          metadata := [("error", msg)] }
    | .ok out =>
        { stream_id := id
          strategy_name := strategyName cfg
          status := if out.trending then .TRENDING else .NORMAL
          score := logistic_normalize out.raw cfg
          raw_statistic := out.raw
          baseline_reference := out.baseline_reference
          current_value := out.current_value
          metadata := [] }

/-- Modelled from the spec: `evaluate(stream_id, now, config)` of section
4.5; the external time-series store (section 6) is the injected `store`,
returning the `(baseline, recent)` windows for a stream at time `now`. -/
noncomputable def evaluate (store : String → ℤ → List ℕ × List ℕ)
    (cfg : AnomalyConfig) (id : String) (now : ℤ) : AnomalyScore :=
  evaluateCore (strategyCompute cfg) cfg id (store id now).1 (store id now).2

/-! ## Batch runner (section 4.6) -/

/-- The batch runner's ranking order (section 4.6): score descending, ties
by `current_value` descending, then `stream_id` ascending. -/
def rankLE (a b : AnomalyScore) : Prop :=
  b.score < a.score ∨
    (a.score = b.score ∧
      (b.current_value < a.current_value ∨
        (a.current_value = b.current_value ∧ a.stream_id ≤ b.stream_id)))

instance : IsTotal AnomalyScore rankLE := by
  constructor
  intro a b
  rcases lt_trichotomy a.score b.score with h | h | h
  · exact Or.inr (Or.inl h)
  · rcases lt_trichotomy a.current_value b.current_value with h2 | h2 | h2
    · exact Or.inr (Or.inr ⟨h.symm, Or.inl h2⟩)
    · rcases le_total a.stream_id b.stream_id with h3 | h3
      · exact Or.inl (Or.inr ⟨h, Or.inr ⟨h2, h3⟩⟩)
      · exact Or.inr (Or.inr ⟨h.symm, Or.inr ⟨h2.symm, h3⟩⟩)
    · exact Or.inl (Or.inr ⟨h, Or.inl h2⟩)
  · exact Or.inl (Or.inl h)

instance : IsTrans AnomalyScore rankLE := by
  constructor
  intro a b c hab hbc
  rcases hab with h1 | ⟨e1, h1⟩
  · rcases hbc with h2 | ⟨e2, h2⟩
    · exact Or.inl (h2.trans h1)
    · exact Or.inl (e2 ▸ h1)
  · rcases hbc with h2 | ⟨e2, h2⟩
    · exact Or.inl (lt_of_lt_of_eq h2 e1.symm)
    · refine Or.inr ⟨e1.trans e2, ?_⟩
      rcases h1 with h1 | ⟨f1, h1⟩
      · rcases h2 with h2 | ⟨f2, h2⟩
        · exact Or.inl (h2.trans h1)
        · exact Or.inl (f2 ▸ h1)
      · rcases h2 with h2 | ⟨f2, h2⟩
        · exact Or.inl (lt_of_lt_of_eq h2 f1.symm)
        · exact Or.inr ⟨f1.trans f2, h1.trans h2⟩

/-- Modelled from the spec: `evaluate_all(stream_ids, now, config)` of
section 4.6 — one evaluation per stream, reassembled into the deterministic
ranking order. -/
noncomputable def evaluateAll (store : String → ℤ → List ℕ × List ℕ)
    (cfg : AnomalyConfig) (ids : List String) (now : ℤ) : List AnomalyScore :=
  letI : DecidableRel rankLE := Classical.decRel _
  (ids.map (fun id => evaluate store cfg id now)).insertionSort rankLE

/-! ## Config store (section 6, `anomaly_config` table, admin `AnomalyView`) -/

/-- The dotted config keys addressable through the admin UI, translated
from `CONFIG_CATEGORIES` in the repository's `AnomalyView` component. -/
def configKeys : List String :=
  ["algorithm", "recent_window_minutes", "baseline_hours", "min_recent_samples",
   "min_baseline_samples", "inactive_threshold_minutes", "logistic_midpoint",
   "logistic_steepness", "score_min", "score_max",
   "quantile_params.baseline_percentile", "quantile_params.recent_percentile",
   "quantile_params.spike_threshold", "quantile_params.high_traffic_multiplier",
   "zscore_params.zscore_threshold", "zscore_params.use_modified_zscore",
   "zscore_params.min_std_floor", "zscore_params.clamp_negative"]

/-- Modelled from the spec: the built-in default (stringified, as the
`anomaly_config` table stores values) for each dotted key, from the module
README defaults and section 3. -/
def builtinDefault (k : String) : String :=
  if k = "algorithm" then "quantile"
  else if k = "recent_window_minutes" then "15"
  else if k = "baseline_hours" then "24"
  else if k = "min_recent_samples" then "5"
  else if k = "min_baseline_samples" then "20"
  else if k = "inactive_threshold_minutes" then "30"
  else if k = "logistic_midpoint" then "0.0"
  else if k = "logistic_steepness" then "0.1"
  else if k = "score_min" then "0.0"
  else if k = "score_max" then "100.0"
  else if k = "quantile_params.baseline_percentile" then "75.0"
  else if k = "quantile_params.recent_percentile" then "90.0"
  else if k = "quantile_params.spike_threshold" then "1.5"
  else if k = "quantile_params.high_traffic_multiplier" then "1.2"
  else if k = "zscore_params.zscore_threshold" then "2.0"
  else if k = "zscore_params.use_modified_zscore" then "true"
  else if k = "zscore_params.min_std_floor" then "10.0"
  else if k = "zscore_params.clamp_negative" then "true"
  else ""

/-- An override store: dotted key to overridden stringified value, absent
when the key is at its built-in default (the `anomaly_config` table holds
one row per overridden key). -/
def OverrideStore : Type := String → Option String

/-- Modelled from the spec: reading a config field by dotted key returns
its current value together with the `is_default` flag (section 6). -/
def getConfigEntry (ov : OverrideStore) (k : String) : String × Bool :=
  match ov k with
  | some v => (v, false)
  | none => (builtinDefault k, true)

/-- Modelled from the spec: setting an override for one dotted key
(`anomalyConfigApi.update` behind the admin UI's update mutation). -/
def setConfigEntry (ov : OverrideStore) (k v : String) : OverrideStore :=
  fun k2 => if k2 = k then some v else ov k2

/-- Modelled from the spec: resetting one dotted key to its built-in
default (`anomalyConfigApi.reset` behind the admin UI's reset mutation). -/
def resetConfigEntry (ov : OverrideStore) (k : String) : OverrideStore :=
  fun k2 => if k2 = k then none else ov k2

/-! ## Widget trend badge, from `src/frontend-widget/src/types/index.ts` -/

/-- `TrendStatus` of `types/index.ts`. -/
inductive TrendStatus where
  | hot
  | rising
  | stable
  | cooling
deriving DecidableEq

/-- `getTrendStatus` of `types/index.ts`: `if (score >= 80) return 'hot';
if (score >= 50) return 'rising'; if (score >= 20) return 'stable';
return 'cooling';`. -/
def getTrendStatus (score : ℚ) : TrendStatus :=
  if 80 ≤ score then .hot
  else if 50 ≤ score then .rising
  else if 20 ≤ score then .stable
  else .cooling

/-! ## Widget configuration, from `src/frontend-widget/src/hooks/useStreams.ts` -/

/-- Widget theme (`'light' | 'dark'` of `types/index.ts`). -/
inductive Theme where
  | light
  | dark
deriving DecidableEq

/-- `WidgetConfig` of `types/index.ts` (the hidden `experimental` flag is
carried separately by `parseQueryParams` and is not part of this record). -/
structure WidgetConfig where
  count : ℤ
  refreshMinutes : ℤ
  apiBaseUrl : String
  theme : Theme
deriving DecidableEq

/-- `DEFAULT_CONFIG` of `types/index.ts`. -/
def DEFAULT_CONFIG : WidgetConfig where
  count := 10
  refreshMinutes := 5
  apiBaseUrl := "http://localhost:8000/api/v1"
  theme := .light

/-- JavaScript whitespace skipped by `parseInt`. -/
def skipWs : List Char → List Char
  | [] => []
  | c :: rest =>
      if c = ' ' ∨ c = '\t' ∨ c = '\n' ∨ c = '\r' then skipWs rest else c :: rest

/-- Leading decimal digits of a character list, as digit values. -/
def leadingDigits : List Char → List ℕ
  | [] => []
  | c :: rest => if c.isDigit then (c.toNat - 48) :: leadingDigits rest else []

/-- Digit list to the natural number it denotes. -/
def digitsToNat (ds : List ℕ) : ℕ := ds.foldl (fun acc d => acc * 10 + d) 0

/-- JavaScript `parseInt(s, 10)`: skip leading whitespace, optional sign,
then the longest leading digit run; `none` models the `NaN` result. -/
def jsParseInt (s : String) : Option ℤ :=
  match skipWs s.toList with
  | '-' :: rest =>
      let ds := leadingDigits rest
      if ds = [] then none else some (-(digitsToNat ds : ℤ))
  | '+' :: rest =>
      let ds := leadingDigits rest
      if ds = [] then none else some ((digitsToNat ds : ℤ))
  | cs =>
      let ds := leadingDigits cs
      if ds = [] then none else some ((digitsToNat ds : ℤ))

/-- The query parameters `parseQueryParams` reads from the URL; `none`
models an absent parameter. -/
structure QueryParams where
  count : Option String
  refreshMinutes : Option String
  apiBaseUrl : Option String
  theme : Option String

/-- The `count` branch of `parseQueryParams`: adopted only for a nonempty
string whose `parseInt` value satisfies `!isNaN(parsed) && parsed > 0 &&
parsed <= 100`. -/
def parseCountParam (o : Option String) : Option ℤ :=
  match o with
  | none => none
  | some s =>
      if s = "" then none
      else
        match jsParseInt s with
        | none => none
        | some p => if 0 < p ∧ p ≤ 100 then some p else none

/-- The `refreshMinutes` branch of `parseQueryParams`: adopted only for a
nonempty string with `!isNaN(parsed) && parsed >= 1 && parsed <= 60`. -/
def parseRefreshParam (o : Option String) : Option ℤ :=
  match o with
  | none => none
  | some s =>
      if s = "" then none
      else
        match jsParseInt s with
        | none => none
        | some p => if 1 ≤ p ∧ p ≤ 60 then some p else none

/-- The `apiBaseUrl` branch of `parseQueryParams`; `new URL(...)` validity
is external to this model and passed in as `isValidURL`. -/
def parseApiBaseUrlParam (isValidURL : String → Bool) (o : Option String) : Option String :=
  match o with
  | none => none
  | some s => if s = "" then none else if isValidURL s then some s else none

/-- The `theme` branch of `parseQueryParams`: adopted only for the exact
strings `"light"` and `"dark"`. -/
def parseThemeParam (o : Option String) : Option Theme :=
  match o with
  | none => none
  | some s => if s = "light" then some .light else if s = "dark" then some .dark else none

/-- `useConfig` of `hooks/useStreams.ts`: the parsed query parameters
spread over `DEFAULT_CONFIG` (`{ ...DEFAULT_CONFIG, ...queryParams }`). -/
def useConfig (isValidURL : String → Bool) (q : QueryParams) : WidgetConfig where
  count := (parseCountParam q.count).getD DEFAULT_CONFIG.count
  refreshMinutes := (parseRefreshParam q.refreshMinutes).getD DEFAULT_CONFIG.refreshMinutes
  apiBaseUrl := (parseApiBaseUrlParam isValidURL q.apiBaseUrl).getD DEFAULT_CONFIG.apiBaseUrl
  theme := (parseThemeParam q.theme).getD DEFAULT_CONFIG.theme

/-! ## Helper lemmas -/

lemma getD_eq_of_mem_of_lt {l : List ℚ} {c : ℚ} (h : ∀ x ∈ l, x = c) :
    ∀ {i : ℕ}, i < l.length → ∀ d, l.getD i d = c := by
  induction l with
  | nil => intro i hi; simp at hi
  | cons a t ih =>
      intro i hi d
      cases i with
      | zero => simpa using h a (by simp)
      | succ j =>
          have ht : ∀ x ∈ t, x = c := fun x hx => h x (by simp [hx])
          simpa using ih ht (by simpa using hi) d

lemma getD_eq_of_mem_default {l : List ℚ} {c : ℚ} (h : ∀ x ∈ l, x = c) :
    ∀ i : ℕ, l.getD i c = c := by
  induction l with
  | nil => intro i; simp
  | cons a t ih =>
      intro i
      cases i with
      | zero => simpa using h a (by simp)
      | succ j =>
          have ht : ∀ x ∈ t, x = c := fun x hx => h x (by simp [hx])
          simpa using ih ht j

/-- Linear-interpolation percentile of a constant list is that constant,
for any percentile rank in `[0, 100]`. -/
lemma percentileQ_const {l : List ℚ} {c p : ℚ} (hne : l ≠ [])
    (hall : ∀ x ∈ l, x = c) (hp0 : 0 ≤ p) (hp1 : p ≤ 100) :
    percentileQ l p = c := by
  have hperm := List.perm_insertionSort (fun x1 x2 : ℚ => x1 ≤ x2) l
  have hmem : ∀ x ∈ l.insertionSort (fun x1 x2 => x1 ≤ x2), x = c :=
    fun x hx => hall x (hperm.mem_iff.mp hx)
  have hlen : (l.insertionSort (fun x1 x2 => x1 ≤ x2)).length = l.length := hperm.length_eq
  have hn : (l.insertionSort (fun x1 x2 => x1 ≤ x2)).length ≠ 0 := by
    rw [hlen]
    exact (List.length_pos.mpr hne).ne'
  unfold percentileQ
  rw [if_neg hn]
  dsimp only
  have hn1 : 1 ≤ (l.insertionSort (fun x1 x2 => x1 ≤ x2)).length :=
    Nat.one_le_iff_ne_zero.mpr hn
  have hcast : (1 : ℚ) ≤ ((l.insertionSort (fun x1 x2 => x1 ≤ x2)).length : ℚ) := by
    exact_mod_cast hn1
  have hq0 : (0 : ℚ) ≤ p / 100 * (((l.insertionSort (fun x1 x2 => x1 ≤ x2)).length : ℚ) - 1) :=
    mul_nonneg (div_nonneg hp0 (by norm_num)) (by linarith)
  have hqle : p / 100 * (((l.insertionSort (fun x1 x2 => x1 ≤ x2)).length : ℚ) - 1) ≤
      ((l.insertionSort (fun x1 x2 => x1 ≤ x2)).length : ℚ) - 1 := by
    have h1 : p / 100 ≤ 1 := (div_le_one (by norm_num)).mpr hp1
    nlinarith
  have hfloor :
      (⌊p / 100 * (((l.insertionSort (fun x1 x2 => x1 ≤ x2)).length : ℚ) - 1)⌋).toNat <
        (l.insertionSort (fun x1 x2 => x1 ≤ x2)).length := by
    have h2 : ⌊p / 100 * (((l.insertionSort (fun x1 x2 => x1 ≤ x2)).length : ℚ) - 1)⌋ ≤
        ((l.insertionSort (fun x1 x2 => x1 ≤ x2)).length : ℤ) - 1 := by
      have h3 : (((l.insertionSort (fun x1 x2 => x1 ≤ x2)).length : ℚ) - 1) =
          ((((l.insertionSort (fun x1 x2 => x1 ≤ x2)).length : ℤ) - 1 : ℤ) : ℚ) := by
        push_cast
        ring
      calc ⌊p / 100 * (((l.insertionSort (fun x1 x2 => x1 ≤ x2)).length : ℚ) - 1)⌋
          ≤ ⌊(((l.insertionSort (fun x1 x2 => x1 ≤ x2)).length : ℚ) - 1)⌋ := Int.floor_mono hqle
        _ = ((l.insertionSort (fun x1 x2 => x1 ≤ x2)).length : ℤ) - 1 := by
            rw [h3, Int.floor_intCast]
    omega
  rw [getD_eq_of_mem_of_lt hmem hfloor, getD_eq_of_mem_default hmem]
  ring

lemma counts_replicate (n v : ℕ) : counts (List.replicate n v) = List.replicate n (v : ℚ) := by
  unfold counts
  rw [List.map_replicate]

lemma counts_ne_nil {w : List ℕ} (h : w ≠ []) : counts w ≠ [] := by
  intro hc
  apply h
  unfold counts at hc
  exact List.map_eq_nil_iff.mp hc

lemma counts_length (w : List ℕ) : (counts w).length = w.length := by
  unfold counts
  exact List.length_map w _

/-- Percentile of a uniform window of viewer counts. -/
lemma percentileQ_counts_replicate {n v : ℕ} (hn : n ≠ 0) {p : ℚ}
    (hp0 : 0 ≤ p) (hp1 : p ≤ 100) :
    percentileQ (counts (List.replicate n v)) p = (v : ℚ) := by
  refine percentileQ_const ?_ ?_ hp0 hp1
  · simp [counts_replicate, hn]
  · intro x hx
    rw [counts_replicate] at hx
    exact (List.eq_of_mem_replicate hx)

lemma meanQ_const {l : List ℚ} {c : ℚ} (hne : l ≠ []) (hall : ∀ x ∈ l, x = c) :
    meanQ l = c := by
  have hsum : l.sum = l.length • c := List.sum_eq_card_nsmul l c hall
  have hlen : (l.length : ℚ) ≠ 0 := by
    exact_mod_cast (List.length_pos.mpr hne).ne'
  unfold meanQ
  rw [hsum, nsmul_eq_mul, mul_comm, mul_div_assoc, div_self hlen, mul_one]

lemma varianceQ_const {l : List ℚ} {c : ℚ} (hne : l ≠ []) (hall : ∀ x ∈ l, x = c) :
    varianceQ l = 0 := by
  unfold varianceQ
  have hmap : ∀ x ∈ l.map (fun v => (v - meanQ l) ^ 2), x = 0 := by
    intro x hx
    rcases List.mem_map.mp hx with ⟨v, hv, rfl⟩
    rw [meanQ_const hne hall, hall v hv]
    ring
  rw [List.sum_eq_zero hmap]
  simp

lemma evaluateCore_stream_id (compute : List ℕ → List ℕ → Except String StratOutcome)
    (cfg : AnomalyConfig) (id : String) (baseline recent : List ℕ) :
    (evaluateCore compute cfg id baseline recent).stream_id = id := by
  unfold evaluateCore
  split
  · rfl
  · split
    · rfl
    · rcases compute baseline recent with msg | out <;> simp

lemma parseCountParam_some_bounds {o : Option String} {p : ℤ}
    (h : parseCountParam o = some p) : 0 < p ∧ p ≤ 100 := by
  cases o with
  | none => simp [parseCountParam] at h
  | some s =>
      simp only [parseCountParam] at h
      by_cases hs : s = ""
      · simp [hs] at h
      · rw [if_neg hs] at h
        cases hj : jsParseInt s with
        | none => rw [hj] at h; dsimp only at h; simp at h
        | some q =>
            rw [hj] at h
            dsimp only at h
            by_cases hb : 0 < q ∧ q ≤ 100
            · rw [if_pos hb] at h
              cases h
              exact hb
            · rw [if_neg hb] at h; simp at h

lemma parseRefreshParam_some_bounds {o : Option String} {p : ℤ}
    (h : parseRefreshParam o = some p) : 1 ≤ p ∧ p ≤ 60 := by
  cases o with
  | none => simp [parseRefreshParam] at h
  | some s =>
      simp only [parseRefreshParam] at h
      by_cases hs : s = ""
      · simp [hs] at h
      · rw [if_neg hs] at h
        cases hj : jsParseInt s with
        | none => rw [hj] at h; dsimp only at h; simp at h
        | some q =>
            rw [hj] at h
            dsimp only at h
            by_cases hb : 1 ≤ q ∧ q ≤ 60
            · rw [if_pos hb] at h
              cases h
              exact hb
            · rw [if_neg hb] at h; simp at h

/-! ## Claim theorems -/

/-- C9: `getTrendStatus` partitions the score range into exactly one badge
per score: `hot` iff `score ≥ 80`, `rising` iff `50 ≤ score < 80`,
`stable` iff `20 ≤ score < 50`, and `cooling` iff `score < 20`. -/
theorem getTrendStatus_partition (s : ℚ) :
    (getTrendStatus s = .hot ↔ 80 ≤ s) ∧
    (getTrendStatus s = .rising ↔ 50 ≤ s ∧ s < 80) ∧
    (getTrendStatus s = .stable ↔ 20 ≤ s ∧ s < 50) ∧
    (getTrendStatus s = .cooling ↔ s < 20) := by
  rcases lt_or_le s 20 with h | h20
  · have hg : getTrendStatus s = .cooling := by
      unfold getTrendStatus
      rw [if_neg (by linarith), if_neg (by linarith), if_neg (by linarith)]
    rw [hg]
    exact ⟨⟨fun hc => by simp at hc, fun hc => (by linarith : False).elim⟩,
      ⟨fun hc => by simp at hc, fun hc => by rcases hc with ⟨a, b⟩; linarith⟩,
      ⟨fun hc => by simp at hc, fun hc => by rcases hc with ⟨a, b⟩; linarith⟩,
      ⟨fun _ => h, fun _ => rfl⟩⟩
  · rcases lt_or_le s 50 with h | h50
    · have hg : getTrendStatus s = .stable := by
        unfold getTrendStatus
        rw [if_neg (by linarith), if_neg (by linarith), if_pos h20]
      rw [hg]
      exact ⟨⟨fun hc => by simp at hc, fun hc => (by linarith : False).elim⟩,
        ⟨fun hc => by simp at hc, fun hc => by rcases hc with ⟨a, b⟩; linarith⟩,
        ⟨fun _ => ⟨h20, h⟩, fun _ => rfl⟩,
        ⟨fun hc => by simp at hc, fun hc => (by linarith : False).elim⟩⟩
    · rcases lt_or_le s 80 with h | h80
      · have hg : getTrendStatus s = .rising := by
          unfold getTrendStatus
          rw [if_neg (by linarith), if_pos h50]
        rw [hg]
        exact ⟨⟨fun hc => by simp at hc, fun hc => (by linarith : False).elim⟩,
          ⟨fun _ => ⟨h50, h⟩, fun _ => rfl⟩,
          ⟨fun hc => by simp at hc, fun hc => by rcases hc with ⟨a, b⟩; linarith⟩,
          ⟨fun hc => by simp at hc, fun hc => (by linarith : False).elim⟩⟩
      · have hg : getTrendStatus s = .hot := by
          unfold getTrendStatus
          rw [if_pos h80]
        rw [hg]
        exact ⟨⟨fun _ => h80, fun _ => rfl⟩,
          ⟨fun hc => by simp at hc, fun hc => by rcases hc with ⟨a, b⟩; linarith⟩,
          ⟨fun hc => by simp at hc, fun hc => by rcases hc with ⟨a, b⟩; linarith⟩,
          ⟨fun hc => by simp at hc, fun hc => (by linarith : False).elim⟩⟩

/-- C10: `useConfig` always yields `count` in `[1, 100]` and
`refreshMinutes` in `[1, 60]`; a query parameter is adopted exactly when it
is present, nonempty and `parseInt` puts it inside the bounds, and any
missing, non-numeric or out-of-range parameter falls back to the defaults
(count 10, refreshMinutes 5, theme light). -/
theorem useConfig_bounds_and_fallback (isValidURL : String → Bool) (q : QueryParams) :
    (1 ≤ (useConfig isValidURL q).count ∧ (useConfig isValidURL q).count ≤ 100) ∧
    (1 ≤ (useConfig isValidURL q).refreshMinutes ∧
      (useConfig isValidURL q).refreshMinutes ≤ 60) ∧
    (∀ s p, q.count = some s → s ≠ "" → jsParseInt s = some p → 0 < p → p ≤ 100 →
      (useConfig isValidURL q).count = p) ∧
    (q.count = none → (useConfig isValidURL q).count = 10) ∧
    (∀ s, q.count = some s → jsParseInt s = none → (useConfig isValidURL q).count = 10) ∧
    (∀ s p, q.count = some s → jsParseInt s = some p → ¬(0 < p ∧ p ≤ 100) →
      (useConfig isValidURL q).count = 10) ∧
    (∀ s p, q.refreshMinutes = some s → s ≠ "" → jsParseInt s = some p → 1 ≤ p → p ≤ 60 →
      (useConfig isValidURL q).refreshMinutes = p) ∧
    (q.refreshMinutes = none → (useConfig isValidURL q).refreshMinutes = 5) ∧
    (∀ s, q.refreshMinutes = some s → jsParseInt s = none →
      (useConfig isValidURL q).refreshMinutes = 5) ∧
    (∀ s p, q.refreshMinutes = some s → jsParseInt s = some p → ¬(1 ≤ p ∧ p ≤ 60) →
      (useConfig isValidURL q).refreshMinutes = 5) ∧
    (q.theme = none → (useConfig isValidURL q).theme = .light) ∧
    (∀ s, q.theme = some s → s ≠ "light" → s ≠ "dark" →
      (useConfig isValidURL q).theme = .light) := by
  refine ⟨?_, ?_, ?_, ?_, ?_, ?_, ?_, ?_, ?_, ?_, ?_, ?_⟩
  · cases hc : parseCountParam q.count with
    | none => simp [useConfig, hc, DEFAULT_CONFIG]
    | some p =>
        have hb := parseCountParam_some_bounds hc
        simp only [useConfig, hc, Option.getD_some]
        omega
  · cases hc : parseRefreshParam q.refreshMinutes with
    | none => simp [useConfig, hc, DEFAULT_CONFIG]
    | some p =>
        have hb := parseRefreshParam_some_bounds hc
        simp only [useConfig, hc, Option.getD_some]
        omega
  · intro s p hq hs hj h1 h2
    simp [useConfig, parseCountParam, hq, hs, hj, h1, h2]
  · intro hq
    simp [useConfig, parseCountParam, hq, DEFAULT_CONFIG]
  · intro s hq hj
    by_cases hs : s = ""
    · simp [useConfig, parseCountParam, hq, hs, DEFAULT_CONFIG]
    · simp [useConfig, parseCountParam, hq, hs, hj, DEFAULT_CONFIG]
  · intro s p hq hj hb
    by_cases hs : s = ""
    · simp [useConfig, parseCountParam, hq, hs, DEFAULT_CONFIG]
    · simp [useConfig, parseCountParam, hq, hs, hj, if_neg hb, DEFAULT_CONFIG]
  · intro s p hq hs hj h1 h2
    simp [useConfig, parseRefreshParam, hq, hs, hj, h1, h2]
  · intro hq
    simp [useConfig, parseRefreshParam, hq, DEFAULT_CONFIG]
  · intro s hq hj
    by_cases hs : s = ""
    · simp [useConfig, parseRefreshParam, hq, hs, DEFAULT_CONFIG]
    · simp [useConfig, parseRefreshParam, hq, hs, hj, DEFAULT_CONFIG]
  · intro s p hq hj hb
    by_cases hs : s = ""
    · simp [useConfig, parseRefreshParam, hq, hs, DEFAULT_CONFIG]
    · simp [useConfig, parseRefreshParam, hq, hs, hj, if_neg hb, DEFAULT_CONFIG]
  · intro hq
    simp [useConfig, parseThemeParam, hq, DEFAULT_CONFIG]
  · intro s hq h1 h2
    simp [useConfig, parseThemeParam, hq, h1, h2, DEFAULT_CONFIG]

/-- C9 witness: every badge is realized at a concrete score. -/
theorem getTrendStatus_partition_examples :
    getTrendStatus 85 = .hot ∧ getTrendStatus 60 = .rising ∧
    getTrendStatus 30 = .stable ∧ getTrendStatus 10 = .cooling :=
  ⟨(getTrendStatus_partition 85).1.mpr (by norm_num),
   (getTrendStatus_partition 60).2.1.mpr (by norm_num),
   (getTrendStatus_partition 30).2.2.1.mpr (by norm_num),
   (getTrendStatus_partition 10).2.2.2.mpr (by norm_num)⟩

/-- C10 witness: `?count=20&refreshMinutes=99` adopts the in-range count
and falls back for the out-of-range refresh and the missing theme. -/
theorem useConfig_bounds_and_fallback_example :
    (useConfig (fun _ => false) ⟨some "20", some "99", none, none⟩).count = 20 ∧
    (useConfig (fun _ => false) ⟨some "20", some "99", none, none⟩).refreshMinutes = 5 ∧
    (useConfig (fun _ => false) ⟨some "20", some "99", none, none⟩).theme = .light := by
  have h := useConfig_bounds_and_fallback (fun _ => false) ⟨some "20", some "99", none, none⟩
  refine ⟨?_, ?_, ?_⟩
  · exact h.2.2.1 "20" 20 rfl (by decide) (by decide) (by decide) (by decide)
  · exact h.2.2.2.2.2.2.2.2.2.1 "99" 99 rfl (by decide) (by decide)
  · exact h.2.2.2.2.2.2.2.2.2.2.1 rfl

/-- C8: for every dotted config key, setting an override and reading the
key back yields the written value with `is_default = false`, and resetting
the key returns the built-in default with `is_default = true`. -/
theorem configEntry_roundtrip (ov : OverrideStore) (k v : String) (_hk : k ∈ configKeys) :
    getConfigEntry (setConfigEntry ov k v) k = (v, false) ∧
    (∀ ov2 : OverrideStore, getConfigEntry (resetConfigEntry ov2 k) k = (builtinDefault k, true)) := by
  constructor
  · unfold getConfigEntry setConfigEntry
    rw [if_pos rfl]
  · intro ov2
    unfold getConfigEntry resetConfigEntry
    rw [if_pos rfl]

/-- C8 witness: the round-trip at the key `quantile_params.spike_threshold`
with the override value `"2.0"` on an empty override store. -/
theorem configEntry_roundtrip_example :
    getConfigEntry (setConfigEntry (fun _ => none) "quantile_params.spike_threshold" "2.0")
        "quantile_params.spike_threshold" = ("2.0", false) ∧
    getConfigEntry (resetConfigEntry (fun _ => none) "quantile_params.spike_threshold")
        "quantile_params.spike_threshold" = ("1.5", true) := by
  have h := configEntry_roundtrip (fun _ => none) "quantile_params.spike_threshold" "2.0"
    (by decide)
  exact ⟨h.1, by rw [h.2 (fun _ => none)]; rfl⟩

lemma evaluateCore_status_of_insufficient
    (compute : List ℕ → List ℕ → Except String StratOutcome) (cfg : AnomalyConfig)
    (id : String) (baseline recent : List ℕ) (h : insufficientData cfg baseline recent) :
    evaluateCore compute cfg id baseline recent = insufficientResult cfg id := by
  unfold evaluateCore
  rw [if_pos h]

lemma evaluateCore_status_ne_insufficient
    (compute : List ℕ → List ℕ → Except String StratOutcome) (cfg : AnomalyConfig)
    (id : String) (baseline recent : List ℕ) (h : ¬ insufficientData cfg baseline recent) :
    (evaluateCore compute cfg id baseline recent).status ≠ .INSUFFICIENT_DATA := by
  unfold evaluateCore
  rw [if_neg h]
  by_cases h2 : inactiveStream baseline recent
  · rw [if_pos h2]
    simp
  · rw [if_neg h2]
    cases hc : compute baseline recent with
    | error msg => simp
    | ok out =>
        dsimp only
        split <;> simp

lemma evaluateCore_status_of_inactive
    (compute : List ℕ → List ℕ → Except String StratOutcome) (cfg : AnomalyConfig)
    (id : String) (baseline recent : List ℕ) (h1 : ¬ insufficientData cfg baseline recent)
    (h2 : inactiveStream baseline recent) :
    (evaluateCore compute cfg id baseline recent).status = .INACTIVE := by
  unfold evaluateCore
  rw [if_neg h1, if_pos h2]

lemma evaluateCore_status_ne_inactive
    (compute : List ℕ → List ℕ → Except String StratOutcome) (cfg : AnomalyConfig)
    (id : String) (baseline recent : List ℕ) (h1 : ¬ insufficientData cfg baseline recent)
    (h2 : ¬ inactiveStream baseline recent) :
    (evaluateCore compute cfg id baseline recent).status ≠ .INACTIVE := by
  unfold evaluateCore
  rw [if_neg h1, if_neg h2]
  cases hc : compute baseline recent with
  | error msg => simp
  | ok out =>
      dsimp only
      split <;> simp

/-- C2: an evaluation reports `INSUFFICIENT_DATA` exactly when the recent
window is below `min_recent_samples` or the baseline window is below
`min_baseline_samples`; in that case the result is the fixed
insufficient-data record, whose score is `0` clamped to `score_min` and
which computes no statistic (it does not depend on the sample values). -/
theorem evaluate_insufficient_iff (store : String → ℤ → List ℕ × List ℕ)
    (cfg : AnomalyConfig) (id : String) (now : ℤ) :
    ((evaluate store cfg id now).status = .INSUFFICIENT_DATA ↔
      ((store id now).2.length < cfg.min_recent_samples ∨
        (store id now).1.length < cfg.min_baseline_samples)) ∧
    (((store id now).2.length < cfg.min_recent_samples ∨
        (store id now).1.length < cfg.min_baseline_samples) →
      evaluate store cfg id now = insufficientResult cfg id ∧
      (evaluate store cfg id now).score = ((max cfg.score_min 0 : ℚ) : ℝ) ∧
      (evaluate store cfg id now).raw_statistic = 0) := by
  have hcond : ((store id now).2.length < cfg.min_recent_samples ∨
      (store id now).1.length < cfg.min_baseline_samples) ↔
      insufficientData cfg (store id now).1 (store id now).2 := Iff.rfl
  constructor
  · constructor
    · intro hst
      by_contra hc
      rw [hcond] at hc
      exact evaluateCore_status_ne_insufficient (strategyCompute cfg) cfg id _ _ hc hst
    · intro hc
      rw [hcond] at hc
      unfold evaluate
      rw [evaluateCore_status_of_insufficient _ _ _ _ _ hc]
      rfl
  · intro hc
    rw [hcond] at hc
    unfold evaluate
    rw [evaluateCore_status_of_insufficient _ _ _ _ _ hc]
    exact ⟨rfl, rfl, rfl⟩

/-- C2 witness: with the default config (20 baseline samples required) and
only 5 baseline samples, the evaluation is `INSUFFICIENT_DATA` with score
`0`. -/
theorem evaluate_insufficient_iff_example :
    (evaluate (fun _ _ => (List.replicate 5 10000, List.replicate 5 1000))
        defaultConfig "stream" 0).status = .INSUFFICIENT_DATA ∧
    (evaluate (fun _ _ => (List.replicate 5 10000, List.replicate 5 1000))
        defaultConfig "stream" 0).score = ((0 : ℚ) : ℝ) := by
  have h := evaluate_insufficient_iff
    (fun _ _ => (List.replicate 5 10000, List.replicate 5 1000)) defaultConfig "stream" 0
  have hcond : (((fun (_ : String) (_ : ℤ) => (List.replicate 5 10000, List.replicate 5 1000))
        "stream" (0 : ℤ)).2.length < defaultConfig.min_recent_samples ∨
      ((fun (_ : String) (_ : ℤ) => (List.replicate 5 10000, List.replicate 5 1000))
        "stream" (0 : ℤ)).1.length < defaultConfig.min_baseline_samples) := by
    right
    decide
  refine ⟨(h.1).mpr hcond, ?_⟩
  have hs := (h.2 hcond).2.1
  rw [hs]
  norm_num [defaultConfig]

/-- C3: with sufficient data, an evaluation reports `INACTIVE` exactly when
the recent median viewer count is `0` or below 1% of the baseline
reference, whatever algorithm the config selects. -/
theorem evaluate_inactive_iff (store : String → ℤ → List ℕ × List ℕ)
    (cfg : AnomalyConfig) (id : String) (now : ℤ)
    (h : ¬ insufficientData cfg (store id now).1 (store id now).2) :
    (evaluate store cfg id now).status = .INACTIVE ↔
      (recentMedian (store id now).2 = 0 ∨
        recentMedian (store id now).2 < baselineRef (store id now).1 / 100) := by
  constructor
  · intro hst
    by_contra hc
    exact evaluateCore_status_ne_inactive (strategyCompute cfg) cfg id _ _ h hc hst
  · intro hc
    exact evaluateCore_status_of_inactive (strategyCompute cfg) cfg id _ _ h hc

/-- C3 witness: baseline median 10000 and recent median 0 gives `INACTIVE`
under the default (quantile) config. -/
theorem evaluate_inactive_iff_example :
    (evaluate (fun _ _ => (List.replicate 21 10000, List.replicate 5 0))
        defaultConfig "stream" 0).status = .INACTIVE := by
  have hmed : recentMedian (List.replicate 5 0) = 0 := by
    unfold recentMedian
    rw [percentileQ_counts_replicate (by norm_num) (by norm_num) (by norm_num)]
    norm_num
  exact (evaluate_inactive_iff (fun _ _ => (List.replicate 21 10000, List.replicate 5 0))
    defaultConfig "stream" 0 (by decide)).mpr (Or.inl hmed)

/-- C4: under the quantile strategy, with sufficient data and an active
stream, the raw statistic is
`percentile(recent, recent_percentile) / max(percentile(baseline, baseline_percentile), epsilon)`
(whose divisor is always positive, so the ratio is defined even for an
all-zero baseline), and the status is `TRENDING` exactly when this spike
ratio reaches `spike_threshold`. -/
theorem evaluate_quantile_spec (store : String → ℤ → List ℕ × List ℕ)
    (cfg : AnomalyConfig) (id : String) (now : ℤ)
    (halg : cfg.algorithm = .quantile)
    (h1 : ¬ insufficientData cfg (store id now).1 (store id now).2)
    (h2 : ¬ inactiveStream (store id now).1 (store id now).2) :
    (evaluate store cfg id now).raw_statistic =
      ((spikeRa cfg (store id now).1 (store id now).2 : ℚ) : ℝ) ∧
    0 < max (percentileQ (counts (store id now).1) cfg.quantile_params.baseline_percentile)
        quantileEpsilon ∧
    ((evaluate store cfg id now).status = .TRENDING ↔
      cfg.quantile_params.spike_threshold ≤ spikeRa cfg (store id now).1 (store id now).2) ∧
    ((evaluate store cfg id now).status = .NORMAL ↔
      spikeRa cfg (store id now).1 (store id now).2 < cfg.quantile_params.spike_threshold) := by
  have hpos : 0 < max (percentileQ (counts (store id now).1)
      cfg.quantile_params.baseline_percentile) quantileEpsilon :=
    lt_of_lt_of_le (by norm_num [quantileEpsilon]) (le_max_right _ _)
  have hcompute : strategyCompute cfg (store id now).1 (store id now).2 =
      .ok (quantileStrategy cfg (store id now).1 (store id now).2) := by
    unfold strategyCompute
    rw [halg]
  have heval : evaluate store cfg id now =
      { stream_id := id
        strategy_name := strategyName cfg
        status := if (quantileStrategy cfg (store id now).1 (store id now).2).trending
          then .TRENDING else .NORMAL
        score := logistic_normalize (quantileStrategy cfg (store id now).1 (store id now).2).raw cfg
        raw_statistic := (quantileStrategy cfg (store id now).1 (store id now).2).raw
        baseline_reference :=
          (quantileStrategy cfg (store id now).1 (store id now).2).baseline_reference
        current_value := (quantileStrategy cfg (store id now).1 (store id now).2).current_value
        metadata := [] } := by
    unfold evaluate evaluateCore
    rw [if_neg h1, if_neg h2, hcompute]
  rw [heval]
  refine ⟨rfl, hpos, ?_, ?_⟩
  · by_cases hle : cfg.quantile_params.spike_threshold ≤
        spikeRa cfg (store id now).1 (store id now).2
    · simp [quantileStrategy, hle]
    · simp [quantileStrategy, hle]
  · by_cases hle : cfg.quantile_params.spike_threshold ≤
        spikeRa cfg (store id now).1 (store id now).2
    · simp [quantileStrategy, hle]
    · simp [quantileStrategy, hle]
      exact lt_of_not_le hle

/-- C4 witness: baseline uniformly 1000 and recent uniformly 2000 under the
default config give spike ratio 2 and status `TRENDING`. -/
theorem evaluate_quantile_spec_example :
    spikeRa defaultConfig (List.replicate 20 1000) (List.replicate 5 2000) = 2 ∧
    (evaluate (fun _ _ => (List.replicate 20 1000, List.replicate 5 2000))
        defaultConfig "stream" 0).status = .TRENDING := by
  have hsr : spikeRa defaultConfig (List.replicate 20 1000) (List.replicate 5 2000) = 2 := by
    unfold spikeRa
    rw [percentileQ_counts_replicate (by norm_num) (by norm_num [defaultConfig])
          (by norm_num [defaultConfig]),
        percentileQ_counts_replicate (by norm_num) (by norm_num [defaultConfig])
          (by norm_num [defaultConfig])]
    rw [max_eq_left (by norm_num [quantileEpsilon])]
    norm_num
  have hrec : recentMedian (List.replicate 5 2000) = 2000 := by
    unfold recentMedian
    rw [percentileQ_counts_replicate (by norm_num) (by norm_num) (by norm_num)]
    norm_num
  have hbase : baselineRef (List.replicate 20 1000) = 1000 := by
    unfold baselineRef
    rw [percentileQ_counts_replicate (by norm_num) (by norm_num) (by norm_num)]
    norm_num
  have hact : ¬ inactiveStream (List.replicate 20 1000) (List.replicate 5 2000) := by
    unfold inactiveStream
    rw [hrec, hbase]
    push_neg
    constructor
    · norm_num
    · norm_num
  have h := evaluate_quantile_spec
    (fun _ _ => (List.replicate 20 1000, List.replicate 5 2000)) defaultConfig "stream" 0
    rfl (by decide) hact
  refine ⟨hsr, ?_⟩
  refine (h.2.2.1).mpr ?_
  rw [hsr]
  norm_num [defaultConfig]

/-- C5: on a perfectly flat baseline (all counts equal) with a positive
`min_std_floor`, both z-score paths have a positive divisor — the standard
divisor is exactly `min_std_floor` and the modified scale is its MAD-unit
equivalent `0.6745 * min_std_floor` — so no division by zero occurs, and a
recent representative value above the constant baseline yields a positive
raw z-score. -/
theorem zscore_flat_baseline (cfg : AnomalyConfig) (baseline recent : List ℕ) (c : ℚ)
    (hne : baseline ≠ []) (hall : ∀ x ∈ counts baseline, x = c)
    (hf : 0 < cfg.zscore_params.min_std_floor) :
    zscoreScaleModified cfg baseline = madConst * cfg.zscore_params.min_std_floor ∧
    0 < zscoreScaleModified cfg baseline ∧
    zscoreStdDivisor cfg baseline = ((cfg.zscore_params.min_std_floor : ℚ) : ℝ) ∧
    0 < zscoreStdDivisor cfg baseline ∧
    (c < percentileQ (counts recent) 90 → 0 < (zscoreStrategy cfg baseline recent).raw) := by
  have hcne : counts baseline ≠ [] := counts_ne_nil hne
  have hmed : percentileQ (counts baseline) 50 = c :=
    percentileQ_const hcne hall (by norm_num) (by norm_num)
  have hmadlist : ∀ x ∈ (counts baseline).map (fun v => |v - percentileQ (counts baseline) 50|),
      x = 0 := by
    intro x hx
    rcases List.mem_map.mp hx with ⟨v, hv, rfl⟩
    rw [hmed, hall v hv]
    simp
  have hmadne : (counts baseline).map (fun v => |v - percentileQ (counts baseline) 50|) ≠ [] := by
    intro hmm
    exact hcne (List.map_eq_nil_iff.mp hmm)
  have hmad : percentileQ
      ((counts baseline).map (fun v => |v - percentileQ (counts baseline) 50|)) 50 = 0 :=
    percentileQ_const hmadne hmadlist (by norm_num) (by norm_num)
  have hmadC : (0 : ℚ) < madConst := by norm_num [madConst]
  have hscale : zscoreScaleModified cfg baseline =
      madConst * cfg.zscore_params.min_std_floor := by
    unfold zscoreScaleModified
    dsimp only
    rw [hmad, mul_zero]
    exact max_eq_right (by positivity)
  have hscalepos : 0 < zscoreScaleModified cfg baseline := by
    rw [hscale]
    positivity
  have hvar : varianceQ (counts baseline) = 0 := varianceQ_const hcne hall
  have hstd : zscoreStdDivisor cfg baseline = ((cfg.zscore_params.min_std_floor : ℚ) : ℝ) := by
    unfold zscoreStdDivisor
    rw [hvar]
    rw [show (((0 : ℚ) : ℝ)) = (0 : ℝ) by norm_num, Real.sqrt_zero]
    exact max_eq_right (by exact_mod_cast hf.le)
  have hstdpos : 0 < zscoreStdDivisor cfg baseline := by
    rw [hstd]
    exact_mod_cast hf
  refine ⟨hscale, hscalepos, hstd, hstdpos, ?_⟩
  intro hx
  have h2 : (0 : ℝ) < ((percentileQ (counts recent) 90 : ℚ) : ℝ) - ((c : ℚ) : ℝ) := by
    have hq : (0 : ℚ) < percentileQ (counts recent) 90 - c := by linarith
    exact_mod_cast hq
  cases hmod : cfg.zscore_params.use_modified_zscore with
  | true =>
      have h1 : (0 : ℝ) < (madConst : ℝ) := by exact_mod_cast hmadC
      have h3 : (0 : ℝ) < ((zscoreScaleModified cfg baseline : ℚ) : ℝ) := by
        exact_mod_cast hscalepos
      cases hcl : cfg.zscore_params.clamp_negative with
      | true =>
          simp [zscoreStrategy, hmod, hcl, hmed]
          exact div_pos (mul_pos h1 h2) h3
      | false =>
          simp [zscoreStrategy, hmod, hcl, hmed]
          exact div_pos (mul_pos h1 h2) h3
  | false =>
      have hmean : meanQ (counts baseline) = c := meanQ_const hcne hall
      cases hcl : cfg.zscore_params.clamp_negative with
      | true =>
          simp [zscoreStrategy, hmod, hcl, hmean]
          exact div_pos h2 hstdpos
      | false =>
          simp [zscoreStrategy, hmod, hcl, hmean]
          exact div_pos h2 hstdpos

/-- C5 witness: baseline constant 5000 with `min_std_floor = 10` (default
modified path): positive scale `0.6745 * 10` and a positive z for a recent
value of 5100. -/
theorem zscore_flat_baseline_example :
    zscoreScaleModified defaultConfig (List.replicate 20 5000) = madConst * 10 ∧
    0 < zscoreScaleModified defaultConfig (List.replicate 20 5000) ∧
    zscoreStdDivisor defaultConfig (List.replicate 20 5000) = ((10 : ℚ) : ℝ) ∧
    0 < (zscoreStrategy defaultConfig (List.replicate 20 5000)
        (List.replicate 5 5100)).raw := by
  have hall : ∀ x ∈ counts (List.replicate 20 5000), x = (5000 : ℚ) := by
    intro x hx
    rw [counts_replicate] at hx
    have := List.eq_of_mem_replicate hx
    rw [this]
    norm_num
  have h := zscore_flat_baseline defaultConfig (List.replicate 20 5000)
    (List.replicate 5 5100) 5000 (by simp) hall (by norm_num [defaultConfig])
  have hx : (5000 : ℚ) < percentileQ (counts (List.replicate 5 5100)) 90 := by
    rw [percentileQ_counts_replicate (by norm_num) (by norm_num) (by norm_num)]
    norm_num
  refine ⟨?_, h.2.1, ?_, h.2.2.2.2 hx⟩
  · rw [h.1]
    norm_num [defaultConfig]
  · rw [h.2.2.1]
    norm_num [defaultConfig]

/-- C6: the detector never propagates a strategy failure: whatever strategy
computation the registry injects, a failure with message `msg` is mapped to
a well-formed `AnomalyScore` for the requested stream with status `ERROR`,
the conventional zero score, and the message recorded in `metadata` — the
detector itself returns a result on every path. -/
theorem evaluateCore_error_contained
    (compute : List ℕ → List ℕ → Except String StratOutcome) (cfg : AnomalyConfig)
    (id : String) (baseline recent : List ℕ) (msg : String)
    (hsuff : ¬ insufficientData cfg baseline recent)
    (hact : ¬ inactiveStream baseline recent)
    (herr : compute baseline recent = .error msg) :
    (evaluateCore compute cfg id baseline recent).status = .ERROR ∧
    (evaluateCore compute cfg id baseline recent).score = ((max cfg.score_min 0 : ℚ) : ℝ) ∧
    ("error", msg) ∈ (evaluateCore compute cfg id baseline recent).metadata ∧
    (evaluateCore compute cfg id baseline recent).stream_id = id := by
  unfold evaluateCore
  rw [if_neg hsuff, if_neg hact, herr]
  exact ⟨rfl, rfl, by simp, rfl⟩

/-- C6 witness: a strategy that always fails with `"boom"` on valid windows
yields `ERROR` with the message in metadata. -/
theorem evaluateCore_error_contained_example :
    (evaluateCore (fun _ _ => .error "boom") defaultConfig "stream"
        (List.replicate 20 1000) (List.replicate 5 1000)).status = .ERROR ∧
    ("error", "boom") ∈ (evaluateCore (fun _ _ => .error "boom") defaultConfig "stream"
        (List.replicate 20 1000) (List.replicate 5 1000)).metadata := by
  have hrec : recentMedian (List.replicate 5 1000) = 1000 := by
    unfold recentMedian
    rw [percentileQ_counts_replicate (by norm_num) (by norm_num) (by norm_num)]
    norm_num
  have hbase : baselineRef (List.replicate 20 1000) = 1000 := by
    unfold baselineRef
    rw [percentileQ_counts_replicate (by norm_num) (by norm_num) (by norm_num)]
    norm_num
  have hact : ¬ inactiveStream (List.replicate 20 1000) (List.replicate 5 1000) := by
    unfold inactiveStream
    rw [hrec, hbase]
    push_neg
    constructor
    · norm_num
    · norm_num
  have h := evaluateCore_error_contained (fun _ _ => .error "boom") defaultConfig "stream"
    (List.replicate 20 1000) (List.replicate 5 1000) "boom" (by decide) hact rfl
  exact ⟨h.1, h.2.2.1⟩

/-- Two sorted permutations of one another are equal, given antisymmetry of
the order on the elements actually present. -/
lemma sorted_perm_eq_of_antisymm_mem {α : Type} {r : α → α → Prop} :
    ∀ {l1 l2 : List α}, l1.Perm l2 → l1.Sorted r → l2.Sorted r →
      (∀ a ∈ l1, ∀ b ∈ l1, r a b → r b a → a = b) → l1 = l2 := by
  intro l1
  induction l1 with
  | nil =>
      intro l2 hp _ _ _
      exact hp.nil_eq
  | cons a t ih =>
      intro l2 hp hs1 hs2 hanti
      cases l2 with
      | nil =>
          have := hp.length_eq
          simp at this
      | cons b t2 =>
          have hab : a = b := by
            have ha2 : a ∈ b :: t2 := hp.subset (List.mem_cons_self a t)
            have hb1 : b ∈ a :: t := hp.symm.subset (List.mem_cons_self b t2)
            rcases List.mem_cons.mp ha2 with h | h
            · exact h
            rcases List.mem_cons.mp hb1 with h2 | h2
            · exact h2.symm
            have hrab : r a b := (List.sorted_cons.mp hs1).1 b h2
            have hrba : r b a := (List.sorted_cons.mp hs2).1 a h
            exact hanti a (List.mem_cons_self a t) b (List.mem_cons.mpr (Or.inr h2)) hrab hrba
          subst hab
          have hperm : t.Perm t2 := hp.cons_inv
          have htail := ih hperm (List.sorted_cons.mp hs1).2 (List.sorted_cons.mp hs2).2
            (fun x hx y hy => hanti x (List.mem_cons.mpr (Or.inr hx))
              y (List.mem_cons.mpr (Or.inr hy)))
          rw [htail]

lemma evaluate_stream_id (store : String → ℤ → List ℕ × List ℕ) (cfg : AnomalyConfig)
    (id : String) (now : ℤ) : (evaluate store cfg id now).stream_id = id :=
  evaluateCore_stream_id _ _ _ _ _

/-- On the results of one batch, the ranking order is antisymmetric:
mutually ranked results come from the same stream and are equal. -/
lemma rankLE_antisymm_on_batch (store : String → ℤ → List ℕ × List ℕ)
    (cfg : AnomalyConfig) (ids : List String) (now : ℤ) :
    ∀ x ∈ ids.map (fun id => evaluate store cfg id now),
      ∀ y ∈ ids.map (fun id => evaluate store cfg id now),
        rankLE x y → rankLE y x → x = y := by
  intro x hx y hy hxy hyx
  rcases List.mem_map.mp hx with ⟨id1, _, rfl⟩
  rcases List.mem_map.mp hy with ⟨id2, _, rfl⟩
  have hid : id1 = id2 := by
    rcases hxy with h | ⟨e1, h⟩
    · rcases hyx with h2 | ⟨e2, h2⟩
      · exact absurd h2 (lt_asymm h)
      · exact absurd h (by rw [e2]; exact lt_irrefl _)
    · rcases hyx with h2 | ⟨e2, h2⟩
      · exact absurd h2 (by rw [e1]; exact lt_irrefl _)
      · rcases h with h | ⟨f1, h⟩
        · rcases h2 with h2 | ⟨f2, h2⟩
          · exact absurd h2 (lt_asymm h)
          · exact absurd h (by rw [f2]; exact lt_irrefl _)
        · rcases h2 with h2 | ⟨f2, h2⟩
          · exact absurd h2 (by rw [f1]; exact lt_irrefl _)
          · have := le_antisymm h h2
            rw [evaluate_stream_id, evaluate_stream_id] at this
            exact this
  rw [hid]

/-- C7: `evaluate_all` returns exactly the per-stream evaluations (one
`AnomalyScore` per stream id), arranged in the ranking order (score
descending, ties by `current_value` descending then `stream_id` ascending);
that arrangement is deterministic — any list of the same evaluations sorted
by the ranking order is equal to it. -/
theorem evaluateAll_ranked (store : String → ℤ → List ℕ × List ℕ)
    (cfg : AnomalyConfig) (ids : List String) (now : ℤ) :
    (evaluateAll store cfg ids now).Perm (ids.map (fun id => evaluate store cfg id now)) ∧
    List.Sorted rankLE (evaluateAll store cfg ids now) ∧
    (evaluateAll store cfg ids now).length = ids.length ∧
    (∀ l : List AnomalyScore,
      l.Perm (ids.map (fun id => evaluate store cfg id now)) →
      List.Sorted rankLE l → l = evaluateAll store cfg ids now) := by
  letI : DecidableRel rankLE := Classical.decRel _
  have hperm : (evaluateAll store cfg ids now).Perm
      (ids.map (fun id => evaluate store cfg id now)) := by
    unfold evaluateAll
    exact List.perm_insertionSort rankLE _
  have hsorted : List.Sorted rankLE (evaluateAll store cfg ids now) := by
    unfold evaluateAll
    exact List.sorted_insertionSort rankLE _
  refine ⟨hperm, hsorted, ?_, ?_⟩
  · rw [hperm.length_eq]
    exact List.length_map _ _
  · intro l hl hsl
    refine sorted_perm_eq_of_antisymm_mem (hl.trans hperm.symm) hsl hsorted ?_
    intro a ha b hb
    exact rankLE_antisymm_on_batch store cfg ids now a (hl.subset ha) b (hl.subset hb)

/-- C7 witness: on an empty batch the unique conforming output is the empty
list. -/
theorem evaluateAll_ranked_example :
    ([] : List AnomalyScore) =
      evaluateAll (fun _ _ => ([], [])) defaultConfig [] 0 :=
  (evaluateAll_ranked (fun _ _ => ([], [])) defaultConfig [] 0).2.2.2
    [] (by simp) (by simp)

/-- The default config with the logistic steepness flipped to `-1`: a
configuration the dotted-key interface can produce, on which the logistic
curve decreases. -/
def negSteepConfig : AnomalyConfig :=
  { defaultConfig with logistic_steepness := -1 }

/-- C1 (amended): for every config with `score_min < score_max`,
`logistic_normalize` stays within `[score_min, score_max]` and its
denominator never vanishes (it is total for every finite real input); it is
monotone nondecreasing in `raw` provided additionally
`logistic_steepness ≥ 0` (the built-in default is `0.1`). -/
theorem logistic_normalize_bounds_monotone (cfg : AnomalyConfig)
    (h : cfg.score_min < cfg.score_max) :
    (∀ raw : ℝ,
      (cfg.score_min : ℝ) ≤ logistic_normalize raw cfg ∧
      logistic_normalize raw cfg ≤ (cfg.score_max : ℝ) ∧
      1 + Real.exp (-(cfg.logistic_steepness : ℝ) *
        (raw - (cfg.logistic_midpoint : ℝ))) ≠ 0) ∧
    (0 ≤ cfg.logistic_steepness →
      ∀ r1 r2 : ℝ, r1 < r2 →
        logistic_normalize r1 cfg ≤ logistic_normalize r2 cfg) := by
  have hMM : (0 : ℝ) ≤ (cfg.score_max : ℝ) - (cfg.score_min : ℝ) := by
    have hlt : (cfg.score_min : ℝ) < (cfg.score_max : ℝ) := by exact_mod_cast h
    linarith
  constructor
  · intro raw
    have hEpos : 0 < Real.exp (-(cfg.logistic_steepness : ℝ) *
        (raw - (cfg.logistic_midpoint : ℝ))) := Real.exp_pos _
    have hD : (0 : ℝ) < 1 + Real.exp (-(cfg.logistic_steepness : ℝ) *
        (raw - (cfg.logistic_midpoint : ℝ))) := by linarith
    have hq0 : 0 ≤ ((cfg.score_max : ℝ) - (cfg.score_min : ℝ)) /
        (1 + Real.exp (-(cfg.logistic_steepness : ℝ) *
          (raw - (cfg.logistic_midpoint : ℝ)))) := div_nonneg hMM hD.le
    have hqle : ((cfg.score_max : ℝ) - (cfg.score_min : ℝ)) /
        (1 + Real.exp (-(cfg.logistic_steepness : ℝ) *
          (raw - (cfg.logistic_midpoint : ℝ)))) ≤
        (cfg.score_max : ℝ) - (cfg.score_min : ℝ) :=
      div_le_self hMM (by linarith)
    unfold logistic_normalize
    exact ⟨by linarith, by linarith, hD.ne'⟩
  · intro hk r1 r2 hlt
    have hk2 : (0 : ℝ) ≤ (cfg.logistic_steepness : ℝ) := by exact_mod_cast hk
    have harg : -(cfg.logistic_steepness : ℝ) * (r2 - (cfg.logistic_midpoint : ℝ)) ≤
        -(cfg.logistic_steepness : ℝ) * (r1 - (cfg.logistic_midpoint : ℝ)) := by
      nlinarith
    have hexp : Real.exp (-(cfg.logistic_steepness : ℝ) *
        (r2 - (cfg.logistic_midpoint : ℝ))) ≤
        Real.exp (-(cfg.logistic_steepness : ℝ) *
          (r1 - (cfg.logistic_midpoint : ℝ))) := Real.exp_le_exp.mpr harg
    have hD2 : (0 : ℝ) < 1 + Real.exp (-(cfg.logistic_steepness : ℝ) *
        (r2 - (cfg.logistic_midpoint : ℝ))) := by
      linarith [Real.exp_pos (-(cfg.logistic_steepness : ℝ) *
        (r2 - (cfg.logistic_midpoint : ℝ)))]
    have hdiv : ((cfg.score_max : ℝ) - (cfg.score_min : ℝ)) /
        (1 + Real.exp (-(cfg.logistic_steepness : ℝ) *
          (r1 - (cfg.logistic_midpoint : ℝ)))) ≤
        ((cfg.score_max : ℝ) - (cfg.score_min : ℝ)) /
        (1 + Real.exp (-(cfg.logistic_steepness : ℝ) *
          (r2 - (cfg.logistic_midpoint : ℝ)))) :=
      div_le_div_of_nonneg_left hMM hD2 (by linarith)
    unfold logistic_normalize
    linarith

/-- C1 counterexample: with `logistic_steepness = -1` (and the default
bounds `score_min = 0 < 100 = score_max`), `logistic_normalize` is strictly
decreasing between `0` and `1`, refuting monotonicity for arbitrary configs
with `score_min < score_max`. -/
theorem logistic_normalize_decreasing_on_negSteep :
    negSteepConfig.score_min < negSteepConfig.score_max ∧ (0 : ℝ) < 1 ∧
    logistic_normalize 1 negSteepConfig < logistic_normalize 0 negSteepConfig := by
  refine ⟨by norm_num [negSteepConfig, defaultConfig], one_pos, ?_⟩
  have he : (2 : ℝ) < Real.exp 1 := by
    have h := @Real.add_one_lt_exp 1 one_ne_zero
    linarith
  have h0 : logistic_normalize 0 negSteepConfig = 50 := by
    unfold logistic_normalize
    norm_num [negSteepConfig, defaultConfig, Real.exp_zero]
  have h1 : logistic_normalize 1 negSteepConfig = 100 / (1 + Real.exp 1) := by
    unfold logistic_normalize
    norm_num [negSteepConfig, defaultConfig]
  rw [h0, h1]
  have h2 : (100 : ℝ) / (1 + Real.exp 1) < 100 / 2 := by
    apply div_lt_div_of_pos_left (by norm_num) (by norm_num)
    linarith
  linarith

/-- C1 witness: the bounds at `raw = 2` and monotonicity between `0` and
`1` under the default config. -/
theorem logistic_normalize_bounds_monotone_example :
    ((defaultConfig.score_min : ℝ) ≤ logistic_normalize 2 defaultConfig ∧
      logistic_normalize 2 defaultConfig ≤ (defaultConfig.score_max : ℝ) ∧
      1 + Real.exp (-(defaultConfig.logistic_steepness : ℝ) *
        (2 - (defaultConfig.logistic_midpoint : ℝ))) ≠ 0) ∧
    logistic_normalize 0 defaultConfig ≤ logistic_normalize 1 defaultConfig := by
  have h := logistic_normalize_bounds_monotone defaultConfig
    (by norm_num [defaultConfig])
  exact ⟨h.1 2, h.2 (by norm_num [defaultConfig]) 0 1 one_pos⟩

end StreamRank
